import Mathlib

/-!
Shallow embedding of the asset-transfer-sbe chaincode
(`asset-transfer-sbe/chaincode-typescript/src/assetContract.ts`).

The chaincode stores each asset as the JSON serialization of a flat object
with fields `ID` (string), `Value` (number), `Owner` (string), `OwnerOrg`
(string), and attaches to each asset key a state-based endorsement policy
naming the owning organization.  The Fabric stub is modelled as a pair of
partial maps: `data` (key to stored JSON blob) and `policy` (key to
validation parameter).  The client identity (`ctx.clientIdentity.getMSPID()`)
is threaded in as an explicit `callerOrg` argument, as the spec directs.

Stored blobs are modelled as parsed JSON objects: a list of fields, each a
string or a number, in insertion order.  `JSON.stringify` is modelled by
`JObj.text` (the rendered character list, used only for the buffer-length
test of `AssetExists`); `JSON.parse` together with the `as Asset` cast and
subsequent field accesses is modelled by `deserialize` and by in-place field
assignment `setField`.
-/

namespace SBE

/-- Scalar JSON value: the chaincode only ever stores strings and numbers. -/
inductive JVal where
  | jstr : String → JVal
  | jnum : Int → JVal
deriving DecidableEq, Repr

/-- Parsed JSON object: fields in insertion order, as JavaScript keeps them. -/
abbrev JObj := List (String × JVal)

/-- Rendering of one character inside a JSON string literal. -/
def escapeChar (c : Char) : List Char :=
  if c = '"' ∨ c = '\\' then ['\\', c] else [c]

/-- Rendered text of a scalar JSON value. -/
def JVal.text : JVal → List Char
  | .jstr s => '"' :: s.data.foldr (fun c acc => escapeChar c ++ acc) ['"']
  | .jnum n => (toString n).data

/-- Rendered text of the field list of a JSON object (between the braces). -/
def fieldsText : JObj → List Char
  | [] => []
  | [(k, v)] => (JVal.jstr k).text ++ ':' :: v.text
  | (k, v) :: rest => (JVal.jstr k).text ++ ':' :: v.text ++ ',' :: fieldsText rest

/-- Rendered text of a JSON object, modelling the bytes `JSON.stringify`
produces for the stored buffer. -/
def JObj.text (o : JObj) : List Char := '\x7b' :: (fieldsText o ++ ['\x7d'])

/-- JavaScript property assignment `o.k = v`: replaces the first field named
`k` in place, or appends a new field at the end. -/
def setField (o : JObj) (k : String) (v : JVal) : JObj :=
  match o with
  | [] => [(k, v)]
  | (k', v') :: rest => if k' = k then (k, v) :: rest else (k', v') :: setField rest k v

/-- Asset record, from `asset.ts`: ID, Value, Owner, OwnerOrg. -/
structure Asset where
  ID : String
  Value : Int
  Owner : String
  OwnerOrg : String
deriving DecidableEq, Repr

/-- Model of `JSON.stringify(asset)`: the four fields in declaration order. -/
def serialize (a : Asset) : JObj :=
  [("ID", .jstr a.ID), ("Value", .jnum a.Value),
   ("Owner", .jstr a.Owner), ("OwnerOrg", .jstr a.OwnerOrg)]

/-- Model of `JSON.parse(s) as Asset` followed by reads of the four fields:
succeeds when every field is present with the right scalar type. -/
def deserialize (o : JObj) : Option Asset :=
  match List.lookup "ID" o, List.lookup "Value" o,
        List.lookup "Owner" o, List.lookup "OwnerOrg" o with
  | some (.jstr i), some (.jnum v), some (.jstr ow), some (.jstr og) =>
      some { ID := i, Value := v, Owner := ow, OwnerOrg := og }
  | _, _, _, _ => none

/-- State-based endorsement policy attached to a key: a role and the listed
organizations (the blob `KeyEndorsementPolicy.getPolicy()` encodes). -/
structure Policy where
  role : String
  orgs : List String
deriving DecidableEq, Repr

/-- The member-role policy over the given organizations. -/
def memberPolicy (orgs : List String) : Policy :=
  { role := "MEMBER", orgs := orgs }

/-- Whether the given set of endorsing organizations satisfies the policy
(OR semantics over the listed organizations, per the spec). -/
def Policy.satisfiedBy (p : Policy) (endorsers : List String) : Bool :=
  p.orgs.any (fun o => endorsers.contains o)

/-- Failure outcomes of the asset service operations. -/
inductive AssetError where
  | alreadyExists (id : String)
  | notFound (id : String)
  | invalidPolicy
  | malformedRecord (id : String)
deriving DecidableEq, Repr

/-- Modelled from the spec: the Policy Builder, `BuildSingleOrgPolicy`
(section 4.2).  Its realization, `KeyEndorsementPolicy` with
`addOrgs("MEMBER", ...)` from `fabric-shim`, is an external library that is
not part of this repository's sources.  Per the spec it fails with
`InvalidPolicy` on an empty organization set and otherwise produces a
member-role policy over the listed organizations. -/
def BuildSingleOrgPolicy (orgs : List String) : Except AssetError Policy :=
  if orgs.isEmpty then .error .invalidPolicy
  else .ok (memberPolicy orgs)

/-- Ledger state seen through the Fabric stub: stored data blobs and
per-key validation parameters (endorsement policies). -/
structure Ledger where
  data : String → Option JObj
  policy : String → Option Policy

/-- The ledger before any operation: every key absent. -/
def emptyLedger : Ledger := { data := fun _ => none, policy := fun _ => none }

/-- Model of `ctx.stub.putState(key, value)`. -/
def putState (L : Ledger) (key : String) (value : JObj) : Ledger :=
  { L with data := fun k => if k = key then some value else L.data k }

/-- Model of `ctx.stub.deleteState(key)`. -/
def deleteState (L : Ledger) (key : String) : Ledger :=
  { L with data := fun k => if k = key then none else L.data k }

/-- Model of `ctx.stub.setStateValidationParameter(key, ep.getPolicy())`:
installs the new policy, replacing any previous one for the key. -/
def setStateValidationParameter (L : Ledger) (key : String) (ep : Policy) : Ledger :=
  { L with policy := fun k => if k = key then some ep else L.policy k }

/-- `setAssetStateBasedEndorsement` from `assetContract.ts`: builds a
member-role policy over `ownerOrgs` and installs it as the key's validation
parameter. -/
def setAssetStateBasedEndorsement (L : Ledger) (assetId : String)
    (ownerOrgs : List String) : Except AssetError Ledger :=
  match BuildSingleOrgPolicy ownerOrgs with
  | .error e => .error e
  | .ok ep => .ok (setStateValidationParameter L assetId ep)

/-- `AssetExists` from `assetContract.ts`: reads the key and tests
`!!buffer && buffer.length > 0` (an absent key yields an empty buffer). -/
def AssetExists (L : Ledger) (assetId : String) : Bool :=
  match L.data assetId with
  | none => false
  | some buffer => decide (0 < (JObj.text buffer).length)

/-- `CreateAsset` from `assetContract.ts`.  `callerOrg` is the result of
`getClientOrgId(ctx)` (the caller's MSPID), threaded in explicitly. -/
def CreateAsset (L : Ledger) (callerOrg : String) (assetId : String)
    (value : Int) (owner : String) : Except AssetError Ledger :=
  if AssetExists L assetId then .error (.alreadyExists assetId)
  else
    let asset : Asset :=
      { ID := assetId, Value := value, Owner := owner, OwnerOrg := callerOrg }
    setAssetStateBasedEndorsement (putState L assetId (serialize asset))
      asset.ID [callerOrg]

/-- `ReadAsset` from `assetContract.ts`: fails `NotFound` when the asset
does not exist, otherwise returns the stored blob.  The inner `none` branch
is unreachable: `AssetExists` returning true forces the key present. -/
def ReadAsset (L : Ledger) (assetId : String) : Except AssetError JObj :=
  if AssetExists L assetId then
    match L.data assetId with
    | some buffer => .ok buffer
    | none => .error (.notFound assetId)
  else .error (.notFound assetId)

/-- `UpdateAsset` from `assetContract.ts`: read (propagating `NotFound`),
assign `asset.Value = newValue`, re-serialize, store. -/
def UpdateAsset (L : Ledger) (assetId : String) (newValue : Int) :
    Except AssetError Ledger :=
  match ReadAsset L assetId with
  | .error e => .error e
  | .ok o => .ok (putState L assetId (setField o "Value" (.jnum newValue)))

/-- `DeleteAsset` from `assetContract.ts`: fails `NotFound` when absent,
otherwise deletes the data key (the policy is not separately cleared). -/
def DeleteAsset (L : Ledger) (assetId : String) : Except AssetError Ledger :=
  if AssetExists L assetId then .ok (deleteState L assetId)
  else .error (.notFound assetId)

/-- `TransferAsset` from `assetContract.ts`: read (propagating `NotFound`),
assign `asset.Owner = newOwner` and `asset.OwnerOrg = newOwnerOrg`, store
under `assetId`, then install the new single-org policy under `asset.ID`
(the ID field of the deserialized record, not the `assetId` parameter).
The `malformedRecord` branch models a stored blob without a string `ID`
field, which no reachable ledger contains. -/
def TransferAsset (L : Ledger) (assetId : String) (newOwner : String)
    (newOwnerOrg : String) : Except AssetError Ledger :=
  match ReadAsset L assetId with
  | .error e => .error e
  | .ok o =>
    let updated := setField (setField o "Owner" (.jstr newOwner))
      "OwnerOrg" (.jstr newOwnerOrg)
    let L1 := putState L assetId updated
    match List.lookup "ID" updated with
    | some (.jstr aid) => setAssetStateBasedEndorsement L1 aid [newOwnerOrg]
    | _ => .error (.malformedRecord assetId)

/-- One invocation of the Asset Service, with the caller's organization
attached where the operation consults it. -/
inductive AOp where
  | create (callerOrg : String) (id : String) (value : Int) (owner : String)
  | read (id : String)
  | update (id : String) (newValue : Int)
  | delete (id : String)
  | transfer (id : String) (newOwner : String) (newOwnerOrg : String)
  | probe (id : String)
deriving DecidableEq, Repr

/-- Effect of one invocation on the ledger (reads and existence probes
leave it unchanged). -/
def applyOp (L : Ledger) : AOp → Except AssetError Ledger
  | .create co id v o => CreateAsset L co id v o
  | .read id =>
      match ReadAsset L id with
      | .error e => .error e
      | .ok _ => .ok L
  | .update id v => UpdateAsset L id v
  | .delete id => DeleteAsset L id
  | .transfer id o2 org2 => TransferAsset L id o2 org2
  | .probe _ => .ok L

/-- Runs a sequence of invocations, `none` as soon as one fails: the
`some` results are exactly the successful sequences. -/
def runOps (L : Ledger) : List AOp → Option Ledger
  | [] => some L
  | op :: rest =>
      match applyOp L op with
      | .ok L1 => runOps L1 rest
      | .error _ => none

/-- Well-formedness of a ledger state: every stored blob is the
serialization of an asset whose ID field equals its ledger key, and the
key's installed policy names exactly that asset's OwnerOrg. -/
def WF (L : Ledger) : Prop :=
  ∀ id b, L.data id = some b →
    ∃ a : Asset, b = serialize a ∧ a.ID = id ∧
      L.policy id = some (memberPolicy [a.OwnerOrg])

/-- Policy-data agreement as the spec states it: wherever a record
deserializes, the installed policy names exactly its OwnerOrg. -/
def StoredPoliciesMatch (L : Ledger) : Prop :=
  ∀ id b a, L.data id = some b → deserialize b = some a →
    L.policy id = some (memberPolicy [a.OwnerOrg])

/-! ### Basic lemmas about the JSON layer and the stub -/

theorem deserialize_serialize (a : Asset) : deserialize (serialize a) = some a := rfl

theorem setField_serialize_value (a : Asset) (v : Int) :
    setField (serialize a) "Value" (.jnum v) = serialize { a with Value := v } := rfl

theorem setField_serialize_owner (a : Asset) (o2 org2 : String) :
    setField (setField (serialize a) "Owner" (.jstr o2)) "OwnerOrg" (.jstr org2)
      = serialize { a with Owner := o2, OwnerOrg := org2 } := rfl

theorem lookup_ID_serialize (a : Asset) :
    List.lookup "ID" (serialize a) = some (.jstr a.ID) := rfl

theorem text_length_pos (o : JObj) : 0 < (JObj.text o).length := by
  simp [JObj.text]

theorem assetExists_of_data (L : Ledger) (id : String) (b : JObj)
    (h : L.data id = some b) : AssetExists L id = true := by
  simp [AssetExists, h, JObj.text]

theorem assetExists_iff_isSome (L : Ledger) (id : String) :
    AssetExists L id = true ↔ (L.data id).isSome := by
  cases h : L.data id <;> simp [AssetExists, h, JObj.text]

theorem assetExists_false_iff (L : Ledger) (id : String) :
    AssetExists L id = false ↔ L.data id = none := by
  cases h : L.data id <;> simp [AssetExists, h, JObj.text]

theorem readAsset_of_data (L : Ledger) (id : String) (b : JObj)
    (h : L.data id = some b) : ReadAsset L id = .ok b := by
  simp [ReadAsset, assetExists_of_data L id b h, h]

theorem readAsset_ok_data (L : Ledger) (id : String) (b : JObj)
    (h : ReadAsset L id = .ok b) : L.data id = some b := by
  unfold ReadAsset at h
  split at h
  · split at h
    · rename_i heq
      cases h
      exact heq
    · cases h
  · cases h

theorem readAsset_notFound (L : Ledger) (id : String)
    (h : AssetExists L id = false) : ReadAsset L id = .error (.notFound id) := by
  simp [ReadAsset, h]

/-! ### Success-path characterizations of the five mutating operations -/

theorem createAsset_ok (L : Ledger) (co id : String) (v : Int) (o : String)
    (h : AssetExists L id = false) :
    CreateAsset L co id v o =
      .ok (setStateValidationParameter
        (putState L id (serialize { ID := id, Value := v, Owner := o, OwnerOrg := co }))
        id (memberPolicy [co])) := by
  simp [CreateAsset, h, setAssetStateBasedEndorsement, BuildSingleOrgPolicy]

theorem createAsset_exists (L : Ledger) (co id : String) (v : Int) (o : String)
    (h : AssetExists L id = true) :
    CreateAsset L co id v o = .error (.alreadyExists id) := by
  simp [CreateAsset, h]

theorem updateAsset_ok (L : Ledger) (id : String) (a : Asset) (v : Int)
    (h : L.data id = some (serialize a)) :
    UpdateAsset L id v = .ok (putState L id (serialize { a with Value := v })) := by
  rw [UpdateAsset, readAsset_of_data L id (serialize a) h]
  rfl

theorem transferAsset_ok (L : Ledger) (id : String) (a : Asset) (o2 org2 : String)
    (h : L.data id = some (serialize a)) :
    TransferAsset L id o2 org2 =
      .ok (setStateValidationParameter
        (putState L id (serialize { a with Owner := o2, OwnerOrg := org2 }))
        a.ID (memberPolicy [org2])) := by
  rw [TransferAsset, readAsset_of_data L id (serialize a) h]
  simp [setField_serialize_owner, lookup_ID_serialize,
    setAssetStateBasedEndorsement, BuildSingleOrgPolicy]

theorem deleteAsset_ok (L : Ledger) (id : String)
    (h : AssetExists L id = true) :
    DeleteAsset L id = .ok (deleteState L id) := by
  simp [DeleteAsset, h]

theorem updateAsset_ok_elim (L L' : Ledger) (id : String) (v : Int)
    (h : UpdateAsset L id v = .ok L') :
    ∃ o, L.data id = some o ∧ L' = putState L id (setField o "Value" (.jnum v)) := by
  unfold UpdateAsset at h
  split at h
  · cases h
  · rename_i o hr
    cases h
    exact ⟨o, readAsset_ok_data L id o hr, rfl⟩

/-! ### Preservation of well-formedness along every operation -/

theorem wf_empty : WF emptyLedger := by
  intro id b h
  simp [emptyLedger] at h

theorem wf_create (L L' : Ledger) (co id : String) (v : Int) (o : String)
    (hWF : WF L) (h : CreateAsset L co id v o = .ok L') : WF L' := by
  cases hex : AssetExists L id with
  | true =>
    rw [createAsset_exists L co id v o hex] at h
    cases h
  | false =>
    rw [createAsset_ok L co id v o hex, Except.ok.injEq] at h
    subst h
    intro key b hb
    by_cases hk : key = id
    · subst hk
      have hb' : serialize { ID := key, Value := v, Owner := o, OwnerOrg := co } = b := by
        simpa [setStateValidationParameter, putState] using hb
      exact ⟨{ ID := key, Value := v, Owner := o, OwnerOrg := co }, hb'.symm, rfl,
        by simp [setStateValidationParameter]⟩
    · obtain ⟨a, hba, haid, hpol⟩ := hWF key b
        (by simpa [setStateValidationParameter, putState, hk] using hb)
      exact ⟨a, hba, haid, by simpa [setStateValidationParameter, hk] using hpol⟩

theorem wf_update (L L' : Ledger) (id : String) (v : Int)
    (hWF : WF L) (h : UpdateAsset L id v = .ok L') : WF L' := by
  obtain ⟨o, hdata, rfl⟩ := updateAsset_ok_elim L L' id v h
  obtain ⟨a, rfl, haid, hpol⟩ := hWF id o hdata
  rw [setField_serialize_value]
  intro key b hb
  by_cases hk : key = id
  · subst hk
    have hb' : serialize { a with Value := v } = b := by simpa [putState] using hb
    exact ⟨{ a with Value := v }, hb'.symm, haid, by simpa [putState] using hpol⟩
  · obtain ⟨a', hba', haid', hpol'⟩ := hWF key b (by simpa [putState, hk] using hb)
    exact ⟨a', hba', haid', by simpa [putState] using hpol'⟩

theorem wf_delete (L L' : Ledger) (id : String)
    (hWF : WF L) (h : DeleteAsset L id = .ok L') : WF L' := by
  unfold DeleteAsset at h
  split at h
  · rw [Except.ok.injEq] at h
    subst h
    intro key b hb
    by_cases hk : key = id
    · subst hk
      simp [deleteState] at hb
    · obtain ⟨a, hba, haid, hpol⟩ := hWF key b (by simpa [deleteState, hk] using hb)
      exact ⟨a, hba, haid, by simpa [deleteState] using hpol⟩
  · cases h

theorem wf_transfer (L L' : Ledger) (id o2 org2 : String)
    (hWF : WF L) (h : TransferAsset L id o2 org2 = .ok L') : WF L' := by
  have hread : ∃ o, ReadAsset L id = .ok o := by
    unfold TransferAsset at h
    split at h
    · cases h
    · rename_i o hr
      exact ⟨o, hr⟩
  obtain ⟨o, hr⟩ := hread
  have hdata := readAsset_ok_data L id o hr
  obtain ⟨a, rfl, haid, hpol⟩ := hWF id o hdata
  rw [transferAsset_ok L id a o2 org2 hdata, Except.ok.injEq] at h
  subst h
  intro key b hb
  by_cases hk : key = id
  · subst hk
    have hb' : serialize { a with Owner := o2, OwnerOrg := org2 } = b := by
      simpa [setStateValidationParameter, putState] using hb
    exact ⟨{ a with Owner := o2, OwnerOrg := org2 }, hb'.symm, haid,
      by simp [setStateValidationParameter, haid]⟩
  · obtain ⟨a', hba', haid', hpol'⟩ := hWF key b
      (by simpa [setStateValidationParameter, putState, hk] using hb)
    have hkne : key ≠ a.ID := by rw [haid]; exact hk
    exact ⟨a', hba', haid', by simpa [setStateValidationParameter, hkne] using hpol'⟩

theorem wf_applyOp (L L' : Ledger) (op : AOp)
    (hWF : WF L) (h : applyOp L op = .ok L') : WF L' := by
  cases op with
  | create co id v o => exact wf_create L L' co id v o hWF h
  | read id =>
    simp only [applyOp] at h
    split at h
    · cases h
    · rw [Except.ok.injEq] at h
      subst h
      exact hWF
  | update id v => exact wf_update L L' id v hWF h
  | delete id => exact wf_delete L L' id hWF h
  | transfer id o2 org2 => exact wf_transfer L L' id o2 org2 hWF h
  | probe id =>
    simp only [applyOp] at h
    rw [Except.ok.injEq] at h
    subst h
    exact hWF

theorem wf_runOps (ops : List AOp) : ∀ L L' : Ledger,
    WF L → runOps L ops = some L' → WF L' := by
  induction ops with
  | nil =>
    intro L L' hWF h
    rw [runOps, Option.some.injEq] at h
    subst h
    exact hWF
  | cons op rest ih =>
    intro L L' hWF h
    rw [runOps] at h
    split at h
    · rename_i L1 happ
      exact ih L1 L' (wf_applyOp L L1 op hWF happ) h
    · cases h

theorem wf_reachable (ops : List AOp) (L : Ledger)
    (h : runOps emptyLedger ops = some L) : WF L :=
  wf_runOps ops emptyLedger L wf_empty h

theorem wf_storedPoliciesMatch (L : Ledger) (hWF : WF L) : StoredPoliciesMatch L := by
  intro id b a hb hdes
  obtain ⟨a', rfl, haid', hpol'⟩ := hWF id b hb
  rw [deserialize_serialize, Option.some.injEq] at hdes
  subst hdes
  exact hpol'

theorem transferAsset_reads (L L' : Ledger) (id o2 org2 : String)
    (h : TransferAsset L id o2 org2 = .ok L') : ∃ o, ReadAsset L id = .ok o := by
  unfold TransferAsset at h
  split at h
  · cases h
  · rename_i o hr
    exact ⟨o, hr⟩

/-! ### Concrete states used to instantiate the theorems -/

/-- One-operation demonstration run: organization Org1 creates asset1. -/
def demoOps : List AOp := [.create "Org1" "asset1" 100 "Alice"]

/-- The ledger after the demonstration run. -/
def demoLedger : Ledger := (runOps emptyLedger demoOps).getD emptyLedger

/-- The asset record the demonstration run stores. -/
def demoAsset : Asset :=
  { ID := "asset1", Value := 100, Owner := "Alice", OwnerOrg := "Org1" }

/-- The demonstration ledger after a transfer of asset1 to Bob of Org2. -/
def demoTransferred : Ledger :=
  match TransferAsset demoLedger "asset1" "Bob" "Org2" with
  | .ok L => L
  | .error _ => emptyLedger

/-- A deliberately ill-formed ledger, outside the reachable states: the
record stored under key k1 carries ID field k2. -/
def mismatchedLedger : Ledger :=
  { data := fun k =>
      if k = "k1" then
        some (serialize { ID := "k2", Value := 7, Owner := "Carol", OwnerOrg := "OrgA" })
      else none,
    policy := fun _ => none }

/-- The ledger after transferring the ill-formed record stored under k1. -/
def mismatchedResult : Ledger :=
  match TransferAsset mismatchedLedger "k1" "Dave" "OrgB" with
  | .ok L => L
  | .error _ => emptyLedger

/-! ### The claims -/

/-- C1: after any successful sequence of Asset Service operations from the
absent state, wherever a record exists its key's stored policy names exactly
the single organization in the record's OwnerOrg field; CreateAsset pairs
its data write with a policy write for the same key in the same operation,
TransferAsset does so on every reachable state, and UpdateAsset changes
neither OwnerOrg (the stored record keeps all fields but Value) nor the
policy map. -/
theorem claim1_policy_data_agreement :
    (∀ ops L, runOps emptyLedger ops = some L → StoredPoliciesMatch L)
    ∧ (∀ (L : Ledger) (co id : String) (v : Int) (o : String) (L' : Ledger),
        CreateAsset L co id v o = .ok L' →
          L'.data id = some (serialize { ID := id, Value := v, Owner := o, OwnerOrg := co })
          ∧ L'.policy id = some (memberPolicy [co]))
    ∧ (∀ ops L, runOps emptyLedger ops = some L →
        ∀ (id o2 org2 : String) (L' : Ledger), TransferAsset L id o2 org2 = .ok L' →
          (∃ b, L'.data id = some b) ∧ L'.policy id = some (memberPolicy [org2]))
    ∧ (∀ (L : Ledger) (id : String) (v : Int) (a : Asset) (L' : Ledger),
        L.data id = some (serialize a) → UpdateAsset L id v = .ok L' →
          L'.policy = L.policy
          ∧ L'.data id = some (serialize { a with Value := v })) := by
  refine ⟨?_, ?_, ?_, ?_⟩
  · intro ops L h
    exact wf_storedPoliciesMatch L (wf_reachable ops L h)
  · intro L co id v o L' h
    cases hex : AssetExists L id with
    | true =>
      rw [createAsset_exists L co id v o hex] at h
      cases h
    | false =>
      rw [createAsset_ok L co id v o hex, Except.ok.injEq] at h
      subst h
      exact ⟨by simp [setStateValidationParameter, putState],
        by simp [setStateValidationParameter]⟩
  · intro ops L hrun id o2 org2 L' htr
    have hWF := wf_reachable ops L hrun
    obtain ⟨o, hr⟩ := transferAsset_reads L L' id o2 org2 htr
    have hdata := readAsset_ok_data L id o hr
    obtain ⟨a, rfl, haid, _⟩ := hWF id o hdata
    rw [transferAsset_ok L id a o2 org2 hdata, Except.ok.injEq] at htr
    subst htr
    exact ⟨⟨serialize { a with Owner := o2, OwnerOrg := org2 },
        by simp [setStateValidationParameter, putState]⟩,
      by simp [setStateValidationParameter, haid]⟩
  · intro L id v a L' hdata h
    rw [updateAsset_ok L id a v hdata, Except.ok.injEq] at h
    subst h
    exact ⟨rfl, by simp [putState]⟩

/-- Instantiation of C1 on the run in which Org1 creates asset1: the run
succeeds and the stored policy for asset1 names exactly Org1. -/
theorem claim1_witness :
    runOps emptyLedger demoOps = some demoLedger
    ∧ demoLedger.policy "asset1" = some (memberPolicy ["Org1"]) :=
  ⟨rfl, claim1_policy_data_agreement.1 demoOps demoLedger rfl "asset1"
    (serialize demoAsset) demoAsset rfl rfl⟩

/-- C2: on a well-formed record, TransferAsset(id, o2, org2) succeeds, the
stored record has Owner o2 and OwnerOrg org2 with ID and Value unchanged,
and the installed policy for key id names exactly org2, replacing the
previous policy entirely. -/
theorem claim2_transfer_correct (L : Ledger) (id : String) (a : Asset) (o2 org2 : String)
    (hdata : L.data id = some (serialize a)) (hid : a.ID = id) :
    ∃ L', TransferAsset L id o2 org2 = .ok L'
      ∧ L'.data id = some (serialize { a with Owner := o2, OwnerOrg := org2 })
      ∧ L'.policy id = some (memberPolicy [org2]) := by
  refine ⟨_, transferAsset_ok L id a o2 org2 hdata, ?_, ?_⟩
  · simp [setStateValidationParameter, putState]
  · simp [setStateValidationParameter, hid]

/-- Instantiation of C2: transferring asset1 from the demonstration ledger
to Bob of Org2. -/
theorem claim2_witness :
    demoLedger.data "asset1" = some (serialize demoAsset)
    ∧ demoAsset.ID = "asset1"
    ∧ ∃ L', TransferAsset demoLedger "asset1" "Bob" "Org2" = .ok L'
        ∧ L'.data "asset1" =
            some (serialize { demoAsset with Owner := "Bob", OwnerOrg := "Org2" })
        ∧ L'.policy "asset1" = some (memberPolicy ["Org2"]) :=
  ⟨rfl, rfl, claim2_transfer_correct demoLedger "asset1" demoAsset "Bob" "Org2" rfl rfl⟩

/-- C3: on an absent id, CreateAsset invoked by a caller of organization
callerOrg succeeds, stores the record with ID id, Value value, Owner owner
and OwnerOrg callerOrg under key id, installs the policy naming callerOrg
alone, and afterwards AssetExists(id) is true. -/
theorem claim3_create_correct (L : Ledger) (co id : String) (v : Int) (o : String)
    (h : AssetExists L id = false) :
    ∃ L', CreateAsset L co id v o = .ok L'
      ∧ L'.data id = some (serialize { ID := id, Value := v, Owner := o, OwnerOrg := co })
      ∧ L'.policy id = some (memberPolicy [co])
      ∧ AssetExists L' id = true := by
  refine ⟨_, createAsset_ok L co id v o h, ?_, ?_, ?_⟩
  · simp [setStateValidationParameter, putState]
  · simp [setStateValidationParameter]
  · exact assetExists_of_data _ id
      (serialize { ID := id, Value := v, Owner := o, OwnerOrg := co })
      (by simp [setStateValidationParameter, putState])

/-- Instantiation of C3: Org1 creates asset1 in the empty ledger. -/
theorem claim3_witness :
    AssetExists emptyLedger "asset1" = false
    ∧ ∃ L', CreateAsset emptyLedger "Org1" "asset1" 100 "Alice" = .ok L'
        ∧ L'.data "asset1" = some (serialize
            { ID := "asset1", Value := 100, Owner := "Alice", OwnerOrg := "Org1" })
        ∧ L'.policy "asset1" = some (memberPolicy ["Org1"])
        ∧ AssetExists L' "asset1" = true :=
  ⟨rfl, claim3_create_correct emptyLedger "Org1" "asset1" 100 "Alice" rfl⟩

/-- C4: on an id with no record, ReadAsset, UpdateAsset, DeleteAsset and
TransferAsset all fail with NotFound; for UpdateAsset and TransferAsset the
failure is the one produced by the internal ReadAsset, propagated as-is.
An error outcome carries no successor ledger in this embedding, so a
failing call performs no ledger write by construction. -/
theorem claim4_notFound (L : Ledger) (id : String) (v : Int) (o2 org2 : String)
    (h : AssetExists L id = false) :
    ReadAsset L id = .error (.notFound id)
    ∧ UpdateAsset L id v = .error (.notFound id)
    ∧ DeleteAsset L id = .error (.notFound id)
    ∧ TransferAsset L id o2 org2 = .error (.notFound id) := by
  refine ⟨readAsset_notFound L id h, ?_, ?_, ?_⟩
  · rw [UpdateAsset, readAsset_notFound L id h]
  · simp [DeleteAsset, h]
  · rw [TransferAsset, readAsset_notFound L id h]

/-- Instantiation of C4 on a key never created. -/
theorem claim4_witness :
    AssetExists emptyLedger "ghost" = false
    ∧ ReadAsset emptyLedger "ghost" = .error (.notFound "ghost")
    ∧ UpdateAsset emptyLedger "ghost" 5 = .error (.notFound "ghost")
    ∧ DeleteAsset emptyLedger "ghost" = .error (.notFound "ghost")
    ∧ TransferAsset emptyLedger "ghost" "Bob" "Org2" = .error (.notFound "ghost") :=
  ⟨rfl, claim4_notFound emptyLedger "ghost" 5 "Bob" "Org2" rfl⟩

/-- C5: on an id whose record exists, CreateAsset always fails with
AlreadyExists.  An error outcome carries no successor ledger in this
embedding: the existing record and its policy are untouched by
construction (no data write and no policy write happens on this path). -/
theorem claim5_create_exists (L : Ledger) (co id : String) (v : Int) (o : String)
    (h : AssetExists L id = true) :
    CreateAsset L co id v o = .error (.alreadyExists id) :=
  createAsset_exists L co id v o h

/-- Instantiation of C5: re-creating asset1 after the demonstration run. -/
theorem claim5_witness :
    AssetExists demoLedger "asset1" = true
    ∧ CreateAsset demoLedger "Org7" "asset1" 5 "Eve" =
        .error (.alreadyExists "asset1") :=
  ⟨rfl, claim5_create_exists demoLedger "Org7" "asset1" 5 "Eve" rfl⟩

/-- C6: on a well-formed record, UpdateAsset(id, v) succeeds, sets the
stored record's Value to v leaving ID, Owner and OwnerOrg as before, leaves
the whole policy map untouched, and writes no other data key. -/
theorem claim6_update_frame (L : Ledger) (id : String) (a : Asset) (v : Int)
    (hdata : L.data id = some (serialize a)) :
    ∃ L', UpdateAsset L id v = .ok L'
      ∧ L'.data id = some (serialize { a with Value := v })
      ∧ L'.policy = L.policy
      ∧ ∀ k, k ≠ id → L'.data k = L.data k := by
  refine ⟨_, updateAsset_ok L id a v hdata, ?_, rfl, ?_⟩
  · simp [putState]
  · intro k hk
    simp [putState, hk]

/-- Instantiation of C6: updating asset1 to value 200 after the
demonstration run. -/
theorem claim6_witness :
    demoLedger.data "asset1" = some (serialize demoAsset)
    ∧ ∃ L', UpdateAsset demoLedger "asset1" 200 = .ok L'
        ∧ L'.data "asset1" = some (serialize { demoAsset with Value := 200 })
        ∧ L'.policy = demoLedger.policy
        ∧ ∀ k, k ≠ "asset1" → L'.data k = demoLedger.data k :=
  ⟨rfl, claim6_update_frame demoLedger "asset1" demoAsset 200 rfl⟩

/-- C7: AssetExists returns true exactly when the store holds a present,
non-empty value for the key, equivalently exactly when the key is present
(every storable JSON blob renders to non-empty text); it is a total
function of the ledger returning Bool, so it never fails and performs no
write. -/
theorem claim7_exists_iff (L : Ledger) (id : String) :
    (AssetExists L id = true ↔ ∃ b, L.data id = some b ∧ 0 < (JObj.text b).length)
    ∧ AssetExists L id = (L.data id).isSome := by
  refine ⟨?_, ?_⟩ <;> cases hd : L.data id <;> simp [AssetExists, hd, JObj.text]

/-- Instantiation of C7 on the demonstration ledger. -/
theorem claim7_witness :
    AssetExists demoLedger "asset1" = (demoLedger.data "asset1").isSome :=
  (claim7_exists_iff demoLedger "asset1").2

/-- C8: serialization round-trip: deserializing the serialized form of any
Asset yields the record back, all four fields equal. -/
theorem claim8_roundtrip (a : Asset) : deserialize (serialize a) = some a :=
  deserialize_serialize a

/-- C9: the policy builder fails with InvalidPolicy on an empty organization
set; on any non-empty set it produces a member-role policy satisfied exactly
when at least one listed organization endorses. -/
theorem claim9_policy_builder :
    BuildSingleOrgPolicy [] = .error .invalidPolicy
    ∧ ∀ orgs : List String, orgs ≠ [] →
        ∃ p, BuildSingleOrgPolicy orgs = .ok p ∧ p.role = "MEMBER"
          ∧ ∀ endorsers : List String,
              (p.satisfiedBy endorsers = true ↔ ∃ o ∈ orgs, o ∈ endorsers) := by
  refine ⟨rfl, ?_⟩
  intro orgs h
  refine ⟨memberPolicy orgs, ?_, rfl, ?_⟩
  · simp [BuildSingleOrgPolicy, h]
  · intro endorsers
    simp [Policy.satisfiedBy, memberPolicy, List.any_eq_true]

/-- Instantiation of C9 on the singleton set the chaincode always uses. -/
theorem claim9_witness :
    (["Org1"] : List String) ≠ []
    ∧ ∃ p, BuildSingleOrgPolicy ["Org1"] = .ok p ∧ p.role = "MEMBER"
        ∧ ∀ endorsers : List String,
            (p.satisfiedBy endorsers = true ↔ ∃ o ∈ (["Org1"] : List String), o ∈ endorsers) :=
  ⟨by simp, claim9_policy_builder.2 ["Org1"] (by simp)⟩

/-- C10: TransferAsset installs the new policy under the ID field of the
deserialized record, not under its assetId parameter; on reachable states
the two coincide, so the policy write targets the same key as the data
write; and on an (unreachable) record whose ID field differs from its key
the policy write lands on the other key. -/
theorem claim10_transfer_policy_key :
    (∀ (L : Ledger) (id : String) (a : Asset) (o2 org2 : String) (L' : Ledger),
        L.data id = some (serialize a) → TransferAsset L id o2 org2 = .ok L' →
          L'.policy a.ID = some (memberPolicy [org2])
          ∧ ∀ k, k ≠ a.ID → L'.policy k = L.policy k)
    ∧ (∀ ops L, runOps emptyLedger ops = some L →
        ∀ (id o2 org2 : String) (L' : Ledger), TransferAsset L id o2 org2 = .ok L' →
          L'.policy id = some (memberPolicy [org2]))
    ∧ (TransferAsset mismatchedLedger "k1" "Dave" "OrgB" = .ok mismatchedResult
        ∧ mismatchedResult.policy "k1" = none
        ∧ mismatchedResult.policy "k2" = some (memberPolicy ["OrgB"])) := by
  refine ⟨?_, ?_, rfl, rfl, rfl⟩
  · intro L id a o2 org2 L' hdata h
    rw [transferAsset_ok L id a o2 org2 hdata, Except.ok.injEq] at h
    subst h
    refine ⟨by simp [setStateValidationParameter], ?_⟩
    intro k hk
    simp [setStateValidationParameter, putState, hk]
  · intro ops L hrun id o2 org2 L' htr
    have hWF := wf_reachable ops L hrun
    obtain ⟨o, hr⟩ := transferAsset_reads L L' id o2 org2 htr
    have hdata := readAsset_ok_data L id o hr
    obtain ⟨a, rfl, haid, _⟩ := hWF id o hdata
    rw [transferAsset_ok L id a o2 org2 hdata, Except.ok.injEq] at htr
    subst htr
    simp [setStateValidationParameter, haid]

/-- Instantiation of C10: the policy write of the transfer of asset1 lands
on the ID field of the stored record. -/
theorem claim10_witness :
    demoLedger.data "asset1" = some (serialize demoAsset)
    ∧ TransferAsset demoLedger "asset1" "Bob" "Org2" = .ok demoTransferred
    ∧ demoTransferred.policy demoAsset.ID = some (memberPolicy ["Org2"]) :=
  ⟨rfl, rfl,
    (claim10_transfer_policy_key.1 demoLedger "asset1" demoAsset "Bob" "Org2"
      demoTransferred rfl rfl).1⟩

end SBE
